import Mathlib

/-!
Verification of the physics core of `rocket.py` (the 3-body-plus-rocket
simulator).

The Python source uses numpy arrays of length 2 for positions, velocities and
accelerations; these are embedded as the `Vec2` structure over `ℝ`.  Bodies
and the `System` container are embedded as records, and the in-place mutation
performed by `System.integrate` becomes a function returning the updated
system.  Python object identity (the `b is not body` filters) is modelled by
list index: every constructor in the source (`System.__init__`, `generate`)
creates each `Body` as a fresh object, so two list entries are never the same
Python object and filtering out the body itself coincides with removing its
index.  The scalar assignment `self.velocity = 0` in
`update_rocket_controls` is modelled as the zero vector, which is exactly how
numpy broadcasting makes that scalar behave in all subsequent arithmetic.
-/

noncomputable section

namespace Rocket

/-- A length-2 numpy array: a 2D vector with real components. -/
structure Vec2 where
  x : ℝ
  y : ℝ

instance : Inhabited Vec2 := ⟨⟨0, 0⟩⟩

/-- Componentwise vector addition. -/
def Vec2.add (a b : Vec2) : Vec2 := ⟨a.x + b.x, a.y + b.y⟩

/-- Componentwise vector subtraction. -/
def Vec2.sub (a b : Vec2) : Vec2 := ⟨a.x - b.x, a.y - b.y⟩

/-- Scalar times vector (numpy broadcasting of `c * r` and `r / d`). -/
def Vec2.smul (c : ℝ) (a : Vec2) : Vec2 := ⟨c * a.x, c * a.y⟩

/-- The zero vector, `np.zeros(2)`. -/
def Vec2.zero : Vec2 := ⟨0, 0⟩

/-- Euclidean magnitude, `np.linalg.norm`. -/
def Vec2.norm (a : Vec2) : ℝ := Real.sqrt (a.x ^ 2 + a.y ^ 2)

/-- Degree-to-radian conversion, `np.radians`. -/
def radians (deg : ℝ) : ℝ := deg * Real.pi / 180

/-- The physics-relevant fields of a `Body`.  `angle` is `None` in Python for
non-rocket bodies and is never read by the physics core in that case; it is
stored as `0` here. -/
structure Body where
  mass : ℝ
  position : Vec2
  velocity : Vec2
  is_rocket : Bool
  thrust : ℝ
  angle : ℝ
  position_history : List Vec2

instance : Inhabited Body := ⟨⟨1, default, default, false, 0, 0, []⟩⟩

/-- `Body.__init__`: thrust is `0.0001` for a rocket and `0` otherwise, the
angle starts at `0` for a rocket (`None`, never read, otherwise) and the
position history starts empty. -/
def Body.make (mass : ℝ) (position velocity : Vec2)
    (is_rocket : Bool := false) : Body :=
  { mass := mass
    position := position
    velocity := velocity
    is_rocket := is_rocket
    thrust := if is_rocket then 0.0001 else 0
    angle := 0
    position_history := [] }

/-- One term of the gravity sum in `Body.compute_acceleration`:
`G * other.mass * r / np.maximum(distance**3, softening**3)` with
`r = other.position - self.position` and `distance = np.linalg.norm(r)`. -/
def gravTerm (G softening : ℝ) (selfPos : Vec2) (other : Body) : Vec2 :=
  let r := Vec2.sub other.position selfPos
  let distance := Vec2.norm r
  Vec2.smul (G * other.mass / max (distance ^ 3) (softening ^ 3)) r

/-- `Body.compute_acceleration`.  The caller (`System.compute_accelerations`)
passes `other_bodies` with the body itself already removed, so the inner
identity filter `if other is not self` of the source is a no-op and is not
repeated here. -/
def Body.compute_acceleration (self : Body) (other_bodies : List Body)
    (G : ℝ := 1.0) (softening : ℝ := 0.18) : Vec2 :=
  let acc : Vec2 := Vec2.zero
  let acc :=
    if !self.is_rocket then
      other_bodies.foldl
        (fun a other => Vec2.add a (gravTerm G softening self.position other)) acc
    else acc
  if self.is_rocket then
    Vec2.add acc
      ⟨-self.thrust * Real.sin (radians self.angle),
        self.thrust * Real.cos (radians self.angle)⟩
  else acc

/-- `Body.get_state`: the flat `[x, y, vx, vy]` quadruple of one body. -/
def Body.get_state (self : Body) : List ℝ :=
  [self.position.x, self.position.y, self.velocity.x, self.velocity.y]

/-- The per-tick snapshot of the four control keys read by
`update_rocket_controls`. -/
structure Keys where
  left : Bool
  right : Bool
  up : Bool
  down : Bool

/-- `Body.update_rocket_controls`.  The Python `self.velocity = 0` stores the
scalar `0`, which numpy broadcasting makes indistinguishable from the zero
vector in every later operation; it is modelled as `Vec2.zero`. -/
def Body.update_rocket_controls (self : Body) (keys : Keys) : Body :=
  if self.is_rocket then
    let b := self
    let b := if keys.left then { b with angle := b.angle + 5 } else b
    let b := if keys.right then { b with angle := b.angle - 5 } else b
    let b := if keys.up then { b with thrust := 6 } else { b with thrust := 0 }
    if keys.down then { b with velocity := Vec2.zero } else b
  else self

/-- The `System` container: gravitational constant and the body list. -/
structure System where
  G : ℝ
  bodies : List Body

/-- `System.__init__` in its state-vector form: one unit-mass passive body
per `[x, y, vx, vy]` quadruple, `int(len(state)/4)` bodies in total (any
trailing remainder of the state vector is ignored). -/
def System.ofState (G : ℝ) (state : List ℝ) : System :=
  { G := G
    bodies := (List.range (state.length / 4)).map (fun body =>
      let n := body * 4
      Body.make 1.0 ⟨state.getD (0 + n) 0, state.getD (1 + n) 0⟩
        ⟨state.getD (2 + n) 0, state.getD (3 + n) 0⟩) }

/-- `System.compute_accelerations`: for each body, the other bodies are the
list with that body (identified by index, see the file comment) removed, and
the softening argument is left at its default `0.18`. -/
def System.compute_accelerations (sys : System) : List Vec2 :=
  (List.range sys.bodies.length).map (fun i =>
    let body := sys.bodies.getD i default
    let other_bodies := sys.bodies.eraseIdx i
    body.compute_acceleration other_bodies sys.G)

/-- `System.get_state`: the concatenation of every body's quadruple, in body
order. -/
def System.get_state (sys : System) : List ℝ :=
  sys.bodies.foldl (fun state body => state ++ body.get_state) []

/-- `System.integrate(dt)`: first loop updates every position from the
accelerations of the current state, the second acceleration pass runs on the
fully position-updated system, and the second loop updates every velocity and
appends the (new) position to the trail, popping the front when the length
exceeds 200000. -/
def System.integrate (sys : System) (dt : ℝ) : System :=
  let accelerations := sys.compute_accelerations
  let bodies1 := (List.range sys.bodies.length).map (fun i =>
    let body := sys.bodies.getD i default
    { body with
        position := Vec2.add body.position
          (Vec2.add (Vec2.smul dt body.velocity)
            (Vec2.smul (0.5 * dt ^ 2) (accelerations.getD i Vec2.zero))) })
  let sys1 : System := ⟨sys.G, bodies1⟩
  let new_accelerations := sys1.compute_accelerations
  let bodies2 := (List.range bodies1.length).map (fun i =>
    let body := bodies1.getD i default
    { body with
        velocity := Vec2.add body.velocity
          (Vec2.smul (0.5 * dt)
            (Vec2.add (accelerations.getD i Vec2.zero)
              (new_accelerations.getD i Vec2.zero)))
        position_history :=
          let hist := body.position_history ++ [body.position]
          if hist.length > 200000 then hist.drop 1 else hist })
  ⟨sys.G, bodies2⟩

/-- The position-update half step of `integrate` on its own: every body moved
to `position + velocity*dt + 0.5*a0*dt^2`, with `a0` the accelerations of the
incoming state.  Used to state properties about the second acceleration
pass. -/
def System.drifted (sys : System) (dt : ℝ) : System :=
  ⟨sys.G, (List.range sys.bodies.length).map (fun i =>
    let body := sys.bodies.getD i default
    { body with
        position := Vec2.add body.position
          (Vec2.add (Vec2.smul dt body.velocity)
            (Vec2.smul (0.5 * dt ^ 2)
              (sys.compute_accelerations.getD i Vec2.zero))) })⟩

/-- `n` consecutive `integrate` ticks. -/
def System.run (sys : System) (dt : ℝ) : ℕ → System
  | 0 => sys
  | T + 1 => (sys.run dt T).integrate dt

/-- The append-then-maybe-pop step applied to one body's trail each tick. -/
def histStep (h : List Vec2) (p : Vec2) : List Vec2 :=
  let hist := h ++ [p]
  if hist.length > 200000 then hist.drop 1 else hist

/-- Sum of a list of vectors, used to state the gravity-sum properties. -/
def vecSum (l : List Vec2) : Vec2 := l.foldl Vec2.add Vec2.zero

/-! ### Basic vector and list lemmas -/

lemma Vec2.add_zero (a : Vec2) : Vec2.add a Vec2.zero = a := by
  cases a; simp [Vec2.add, Vec2.zero]

lemma Vec2.zero_add (a : Vec2) : Vec2.add Vec2.zero a = a := by
  cases a; simp [Vec2.add, Vec2.zero]

lemma Vec2.add_assoc (a b c : Vec2) :
    Vec2.add (Vec2.add a b) c = Vec2.add a (Vec2.add b c) := by
  cases a; cases b; cases c; simp [Vec2.add]; constructor <;> ring

lemma foldl_add_acc (l : List Vec2) (acc : Vec2) :
    l.foldl Vec2.add acc = Vec2.add acc (vecSum l) := by
  induction l generalizing acc with
  | nil => simp [vecSum, Vec2.add_zero]
  | cons hd tl ih =>
    show List.foldl Vec2.add (Vec2.add acc hd) tl = _
    rw [ih]
    show _ = Vec2.add acc (List.foldl Vec2.add (Vec2.add Vec2.zero hd) tl)
    rw [ih (Vec2.add Vec2.zero hd), Vec2.zero_add, Vec2.add_assoc]

lemma vecSum_cons (a : Vec2) (l : List Vec2) :
    vecSum (a :: l) = Vec2.add a (vecSum l) := by
  show List.foldl Vec2.add (Vec2.add Vec2.zero a) l = _
  rw [foldl_add_acc, Vec2.zero_add]

lemma foldl_map_add {α : Type _} (f : α → Vec2) (l : List α) (acc : Vec2) :
    l.foldl (fun a o => Vec2.add a (f o)) acc = Vec2.add acc (vecSum (l.map f)) := by
  induction l generalizing acc with
  | nil => simp [vecSum, Vec2.add_zero]
  | cons hd tl ih =>
    show List.foldl (fun a o => Vec2.add a (f o)) (Vec2.add acc (f hd)) tl = _
    rw [ih, List.map_cons, vecSum_cons, Vec2.add_assoc]

lemma getD_range_map {α : Type _} (f : ℕ → α) (d : α) {n i : ℕ} (h : i < n) :
    ((List.range n).map f).getD i d = f i := by
  rw [List.getD_eq_getElem _ _ (by simp [h])]
  rw [List.getElem_map, List.getElem_range]

lemma System.length_integrate (sys : System) (dt : ℝ) :
    (sys.integrate dt).bodies.length = sys.bodies.length := by
  simp [System.integrate]

lemma System.length_run (sys : System) (dt : ℝ) (T : ℕ) :
    (sys.run dt T).bodies.length = sys.bodies.length := by
  induction T with
  | zero => rfl
  | succ T ih => rw [System.run, System.length_integrate, ih]

lemma System.compute_accelerations_getD (sys : System) {i : ℕ}
    (hi : i < sys.bodies.length) :
    sys.compute_accelerations.getD i Vec2.zero =
      (sys.bodies.getD i default).compute_acceleration
        (sys.bodies.eraseIdx i) sys.G := by
  rw [System.compute_accelerations, getD_range_map _ _ hi]

lemma System.drifted_getD (sys : System) (dt : ℝ) {i : ℕ}
    (hi : i < sys.bodies.length) :
    (sys.drifted dt).bodies.getD i default =
      { sys.bodies.getD i default with
          position := Vec2.add (sys.bodies.getD i default).position
            (Vec2.add (Vec2.smul dt (sys.bodies.getD i default).velocity)
              (Vec2.smul (0.5 * dt ^ 2)
                (sys.compute_accelerations.getD i Vec2.zero))) } := by
  rw [System.drifted, getD_range_map _ _ hi]

/-- The two loops of `integrate`, read off per body: the first loop is the
`drifted` position update, the second adds the averaged kick to the velocity
and applies `histStep` to the trail; no other field changes. -/
lemma System.integrate_getD (sys : System) (dt : ℝ) {i : ℕ}
    (hi : i < sys.bodies.length) :
    (sys.integrate dt).bodies.getD i default =
      { (sys.drifted dt).bodies.getD i default with
          velocity := Vec2.add ((sys.drifted dt).bodies.getD i default).velocity
            (Vec2.smul (0.5 * dt)
              (Vec2.add (sys.compute_accelerations.getD i Vec2.zero)
                ((sys.drifted dt).compute_accelerations.getD i Vec2.zero)))
          position_history :=
            histStep ((sys.drifted dt).bodies.getD i default).position_history
              ((sys.drifted dt).bodies.getD i default).position } := by
  show ((List.range _).map _).getD i default = _
  rw [getD_range_map _ _ (by simpa using hi)]
  rfl

/-! ### Concrete systems used by the witnesses -/

/-- A one-passive-body system built from a flat state vector. -/
def oneBodySys : System := System.ofState 1 [0, 0, 0, 0]

lemma oneBodySys_length : oneBodySys.bodies.length = 1 := rfl

/-! ### Claims -/

/-- Claim C1: `System.integrate(dt)` is exactly the two-pass velocity-Verlet
step: with `a0` the accelerations of the incoming state, every body's
position becomes `position + velocity*dt + 0.5*a0*dt²`; the second
acceleration pass `a1` is computed from the system in which *all* positions
have already been updated (`System.drifted`, never a mix of old and new
positions); and every body's velocity becomes `velocity + 0.5*(a0+a1)*dt`
with `a0` and `a1` both from this tick. -/
theorem integrate_velocity_verlet (sys : System) (dt : ℝ) (i : ℕ)
    (hi : i < sys.bodies.length) :
    ((sys.integrate dt).bodies.getD i default).position =
        Vec2.add (sys.bodies.getD i default).position
          (Vec2.add (Vec2.smul dt (sys.bodies.getD i default).velocity)
            (Vec2.smul (0.5 * dt ^ 2)
              (sys.compute_accelerations.getD i Vec2.zero))) ∧
    ((sys.integrate dt).bodies.getD i default).velocity =
        Vec2.add (sys.bodies.getD i default).velocity
          (Vec2.smul (0.5 * dt)
            (Vec2.add (sys.compute_accelerations.getD i Vec2.zero)
              ((sys.drifted dt).compute_accelerations.getD i Vec2.zero))) := by
  rw [System.integrate_getD sys dt hi]
  refine ⟨?_, ?_⟩
  · show ((sys.drifted dt).bodies.getD i default).position = _
    rw [System.drifted_getD sys dt hi]
  · show Vec2.add ((sys.drifted dt).bodies.getD i default).velocity _ = _
    rw [System.drifted_getD sys dt hi]

/-- Witness for C1 at a concrete one-body system, `dt = 1`, body `0`. -/
theorem integrate_velocity_verlet_witness :
    0 < oneBodySys.bodies.length ∧
    (((oneBodySys.integrate 1).bodies.getD 0 default).position =
        Vec2.add (oneBodySys.bodies.getD 0 default).position
          (Vec2.add (Vec2.smul 1 (oneBodySys.bodies.getD 0 default).velocity)
            (Vec2.smul (0.5 * 1 ^ 2)
              (oneBodySys.compute_accelerations.getD 0 Vec2.zero))) ∧
      ((oneBodySys.integrate 1).bodies.getD 0 default).velocity =
        Vec2.add (oneBodySys.bodies.getD 0 default).velocity
          (Vec2.smul (0.5 * 1)
            (Vec2.add (oneBodySys.compute_accelerations.getD 0 Vec2.zero)
              ((oneBodySys.drifted 1).compute_accelerations.getD 0 Vec2.zero)))) :=
  ⟨by rw [oneBodySys_length]; norm_num,
    integrate_velocity_verlet oneBodySys 1 0 (by rw [oneBodySys_length]; norm_num)⟩

/-- A two-passive-body system from the flat vector of spec §8. -/
def twoBodySys : System := System.ofState 1 [0, 0, 1, 0, 2, 0, 0, 1]

lemma twoBodySys_length : twoBodySys.bodies.length = 2 := rfl

/-- A rocket body as built by `Body(..., is_rocket=True)`. -/
def rocketBody : Body := Body.make 0.0001 ⟨0, 1.2⟩ ⟨0, 0⟩ true

/-- Claim C2: a non-controllable body's acceleration, as computed through
`System.compute_accelerations`, is the sum over every other body `o` (the
body itself removed by identity, i.e. by its list index, not by comparing
positions) of `G * o.mass * (o.position - self.position) /
max(|o.position - self.position|³, softening³)` with the default softening
`0.18`; and with zero other bodies the gravity sum is the zero vector, not an
error. -/
theorem passive_acceleration_formula :
    (∀ (sys : System) (i : ℕ), i < sys.bodies.length →
      (sys.bodies.getD i default).is_rocket = false →
      sys.compute_accelerations.getD i Vec2.zero =
        vecSum ((sys.bodies.eraseIdx i).map (fun o =>
          Vec2.smul (sys.G * o.mass /
              max ((Vec2.norm (Vec2.sub o.position
                  (sys.bodies.getD i default).position)) ^ 3) ((0.18 : ℝ) ^ 3))
            (Vec2.sub o.position (sys.bodies.getD i default).position)))) ∧
    (∀ (b : Body) (G s : ℝ), b.is_rocket = false →
      b.compute_acceleration [] G s = Vec2.zero) := by
  constructor
  · intro sys i hi hr
    rw [System.compute_accelerations_getD sys hi]
    simp only [Body.compute_acceleration, hr, Bool.not_false, if_true, if_false,
      Bool.false_eq_true, ite_true, ite_false]
    rw [foldl_map_add, Vec2.zero_add]
    rfl
  · intro b G s hr
    simp [Body.compute_acceleration, hr]

/-- Witness for C2: the two-body system and a lone passive body. -/
theorem passive_acceleration_formula_witness :
    (twoBodySys.bodies.getD 0 default).is_rocket = false ∧
    twoBodySys.compute_accelerations.getD 0 Vec2.zero =
      vecSum ((twoBodySys.bodies.eraseIdx 0).map (fun o =>
        Vec2.smul (twoBodySys.G * o.mass /
            max ((Vec2.norm (Vec2.sub o.position
                (twoBodySys.bodies.getD 0 default).position)) ^ 3)
              ((0.18 : ℝ) ^ 3))
          (Vec2.sub o.position (twoBodySys.bodies.getD 0 default).position))) ∧
    (Body.make 1 ⟨0, 0⟩ ⟨0, 0⟩).compute_acceleration [] 1 0.18 = Vec2.zero :=
  ⟨rfl,
    passive_acceleration_formula.1 twoBodySys 0
      (by rw [twoBodySys_length]; norm_num) rfl,
    passive_acceleration_formula.2 (Body.make 1 ⟨0, 0⟩ ⟨0, 0⟩) 1 0.18 rfl⟩

/-- Claim C3: a controllable body's acceleration applies no gravity at all:
whatever the other bodies (and `G`, and the softening) are, it equals exactly
the thrust vector `thrust * (-sin(radians(angle)), cos(radians(angle)))`,
heading in degrees with `0` pointing up; its magnitude is `thrust` whenever
`thrust` is non-negative. -/
theorem rocket_acceleration_thrust (b : Body) (others : List Body) (G s : ℝ)
    (hr : b.is_rocket = true) :
    b.compute_acceleration others G s =
      ⟨-b.thrust * Real.sin (radians b.angle),
        b.thrust * Real.cos (radians b.angle)⟩ ∧
    (0 ≤ b.thrust → Vec2.norm (b.compute_acceleration others G s) = b.thrust) := by
  have h1 : b.compute_acceleration others G s =
      ⟨-b.thrust * Real.sin (radians b.angle),
        b.thrust * Real.cos (radians b.angle)⟩ := by
    simp only [Body.compute_acceleration, hr, Bool.not_true, if_true, if_false,
      Bool.false_eq_true, ite_true, ite_false]
    rw [Vec2.zero_add]
  refine ⟨h1, fun ht => ?_⟩
  rw [h1]
  show Real.sqrt _ = b.thrust
  have h2 : (-b.thrust * Real.sin (radians b.angle)) ^ 2 +
      (b.thrust * Real.cos (radians b.angle)) ^ 2 = b.thrust ^ 2 := by
    have hs := Real.sin_sq_add_cos_sq (radians b.angle)
    nlinarith [hs]
  rw [h2, Real.sqrt_sq ht]

/-- Witness for C3 at the concrete rocket body. -/
theorem rocket_acceleration_thrust_witness :
    rocketBody.compute_acceleration [] 1 0.18 =
      ⟨-rocketBody.thrust * Real.sin (radians rocketBody.angle),
        rocketBody.thrust * Real.cos (radians rocketBody.angle)⟩ ∧
    Vec2.norm (rocketBody.compute_acceleration [] 1 0.18) = rocketBody.thrust :=
  ⟨(rocket_acceleration_thrust rocketBody [] 1 0.18 rfl).1,
    (rocket_acceleration_thrust rocketBody [] 1 0.18 rfl).2
      (by norm_num [rocketBody, Body.make])⟩

lemma Vec2.norm_smul (c : ℝ) (a : Vec2) :
    (Vec2.smul c a).norm = |c| * a.norm := by
  show Real.sqrt ((c * a.x) ^ 2 + (c * a.y) ^ 2) = _
  rw [show (c * a.x) ^ 2 + (c * a.y) ^ 2 = c ^ 2 * (a.x ^ 2 + a.y ^ 2) by ring,
    Real.sqrt_mul (sq_nonneg c), Real.sqrt_sq_eq_abs]
  rfl

/-- Claim C6: the cubic-softened denominator `max(distance³, softening³)` is
strictly positive for every separation (coincident positions included, so no
division by zero ever occurs), and the magnitude of the pairwise
gravitational acceleration is bounded by the softened floor
`G * mass / softening²`. -/
theorem softened_acceleration_bound (G s : ℝ) (selfPos : Vec2) (o : Body)
    (hG : 0 ≤ G) (hm : 0 ≤ o.mass) (hs : 0 < s) :
    0 < max ((Vec2.norm (Vec2.sub o.position selfPos)) ^ 3) (s ^ 3) ∧
    Vec2.norm (gravTerm G s selfPos o) ≤ G * o.mass / s ^ 2 := by
  set d := Vec2.norm (Vec2.sub o.position selfPos) with hd
  have hd0 : 0 ≤ d := Real.sqrt_nonneg _
  have hD : 0 < max (d ^ 3) (s ^ 3) :=
    lt_of_lt_of_le (by positivity) (le_max_right _ _)
  refine ⟨hD, ?_⟩
  have h1 : Vec2.norm (gravTerm G s selfPos o) =
      |G * o.mass / max (d ^ 3) (s ^ 3)| * d := by
    show (Vec2.smul _ _).norm = _
    rw [Vec2.norm_smul, ← hd]
  have h2 : |G * o.mass / max (d ^ 3) (s ^ 3)| =
      G * o.mass / max (d ^ 3) (s ^ 3) :=
    abs_of_nonneg (div_nonneg (mul_nonneg hG hm) hD.le)
  rw [h1, h2, div_mul_eq_mul_div,
    div_le_div_iff₀ hD (by positivity : (0 : ℝ) < s ^ 2)]
  have key : d * s ^ 2 ≤ max (d ^ 3) (s ^ 3) := by
    rcases le_total d s with h | h
    · have hds : d * s ^ 2 ≤ s ^ 3 := by
        nlinarith [mul_nonneg (sub_nonneg.mpr h) (sq_nonneg s)]
      exact le_trans hds (le_max_right _ _)
    · have hds : d * s ^ 2 ≤ d ^ 3 := by
        nlinarith [mul_nonneg (mul_nonneg hd0 (sub_nonneg.mpr h))
          (add_nonneg hd0 hs.le)]
      exact le_trans hds (le_max_left _ _)
  have h3 : (G * o.mass) * (d * s ^ 2) ≤ (G * o.mass) * max (d ^ 3) (s ^ 3) :=
    mul_le_mul_of_nonneg_left key (mul_nonneg hG hm)
  nlinarith [h3]

/-- Witness for C6 at coincident positions, `G = mass = softening = 1`. -/
theorem softened_acceleration_bound_witness :
    0 < max ((Vec2.norm (Vec2.sub (Body.make 1 ⟨0, 0⟩ ⟨0, 0⟩).position ⟨0, 0⟩)) ^ 3)
        ((1 : ℝ) ^ 3) ∧
    Vec2.norm (gravTerm 1 1 ⟨0, 0⟩ (Body.make 1 ⟨0, 0⟩ ⟨0, 0⟩)) ≤
      1 * (Body.make 1 ⟨0, 0⟩ ⟨0, 0⟩).mass / 1 ^ 2 :=
  softened_acceleration_bound 1 1 ⟨0, 0⟩ (Body.make 1 ⟨0, 0⟩ ⟨0, 0⟩)
    (by norm_num) (by norm_num [Body.make]) (by norm_num)

/-! ### State round trip (C5) -/

lemma foldl_append_get_state (l : List Body) (init : List ℝ) :
    l.foldl (fun state body => state ++ body.get_state) init =
      init ++ (l.map Body.get_state).flatten := by
  induction l generalizing init with
  | nil => simp
  | cons hd tl ih =>
    show List.foldl _ (init ++ hd.get_state) tl = _
    rw [ih]
    simp [List.append_assoc]

lemma System.get_state_eq_flatten (sys : System) :
    sys.get_state = (sys.bodies.map Body.get_state).flatten := by
  show sys.bodies.foldl _ [] = _
  rw [foldl_append_get_state]
  rfl

lemma getD_cons4 (x y z w : ℝ) (l : List ℝ) (m : ℕ) :
    (x :: y :: z :: w :: l).getD (m + 4) 0 = l.getD m 0 := by
  show ([x, y, z, w] ++ l).getD (m + 4) 0 = l.getD m 0
  rw [List.getD_append_right]
  · norm_num
  · simp

lemma ofState_cons4 (G a b c d : ℝ) (rest : List ℝ) :
    (System.ofState G (a :: b :: c :: d :: rest)).bodies =
      Body.make 1.0 ⟨a, b⟩ ⟨c, d⟩ :: (System.ofState G rest).bodies := by
  show (List.range ((a :: b :: c :: d :: rest).length / 4)).map _ = _
  have hlen : (a :: b :: c :: d :: rest).length / 4 = rest.length / 4 + 1 := by
    simp only [List.length_cons]
    omega
  rw [hlen, List.range_succ_eq_map, List.map_cons, List.map_map]
  congr 1
  apply List.map_congr_left
  intro k _
  show Body.make 1.0
      ⟨(a :: b :: c :: d :: rest).getD (0 + Nat.succ k * 4) 0,
        (a :: b :: c :: d :: rest).getD (1 + Nat.succ k * 4) 0⟩
      ⟨(a :: b :: c :: d :: rest).getD (2 + Nat.succ k * 4) 0,
        (a :: b :: c :: d :: rest).getD (3 + Nat.succ k * 4) 0⟩ = _
  have e0 : 0 + Nat.succ k * 4 = 0 + k * 4 + 4 := by omega
  have e1 : 1 + Nat.succ k * 4 = 1 + k * 4 + 4 := by omega
  have e2 : 2 + Nat.succ k * 4 = 2 + k * 4 + 4 := by omega
  have e3 : 3 + Nat.succ k * 4 = 3 + k * 4 + 4 := by omega
  rw [e0, e1, e2, e3, getD_cons4, getD_cons4, getD_cons4, getD_cons4]

lemma ofState_get_state (G : ℝ) (n : ℕ) :
    ∀ state : List ℝ, state.length = 4 * n →
      (System.ofState G state).get_state = state := by
  induction n with
  | zero =>
    intro state h
    have hnil : state = [] := List.length_eq_zero.mp (by omega)
    subst hnil
    rfl
  | succ n ih =>
    intro state h
    obtain ⟨a, b, c, d, rest, rfl⟩ :
        ∃ a b c d rest, state = a :: b :: c :: d :: rest := by
      rcases state with _ | ⟨a, _ | ⟨b, _ | ⟨c, _ | ⟨d, rest⟩⟩⟩⟩ <;>
        first
          | (exfalso; simp only [List.length_cons, List.length_nil] at h; omega)
          | exact ⟨_, _, _, _, _, rfl⟩
    have hrest : rest.length = 4 * n := by
      simp only [List.length_cons] at h
      omega
    rw [System.get_state_eq_flatten, ofState_cons4, List.map_cons,
      List.flatten_cons, ← System.get_state_eq_flatten, ih rest hrest]
    rfl

/-- Claim C5: constructing a `System` from a flat state vector whose length
is a multiple of 4 and immediately reading `get_state` returns exactly the
same flat sequence. -/
theorem state_round_trip (G : ℝ) (state : List ℝ)
    (h : state.length % 4 = 0) :
    (System.ofState G state).get_state = state := by
  obtain ⟨n, hn⟩ : ∃ n, state.length = 4 * n := ⟨state.length / 4, by omega⟩
  exact ofState_get_state G n state hn

/-- Witness for C5: the concrete vector `[0,0,1,0, 2,0,0,1]` of spec §8
round-trips exactly. -/
theorem state_round_trip_witness :
    ([(0 : ℝ), 0, 1, 0, 2, 0, 0, 1].length % 4 = 0) ∧
    (System.ofState 1 [0, 0, 1, 0, 2, 0, 0, 1]).get_state =
      [0, 0, 1, 0, 2, 0, 0, 1] :=
  ⟨by simp, state_round_trip 1 [0, 0, 1, 0, 2, 0, 0, 1] (by simp)⟩

/-! ### Trajectory history (C4, C10) -/

lemma getD_drop {α : Type _} (l : List α) (n i : ℕ) (d : α)
    (h : n + i < l.length) :
    (l.drop n).getD i d = l.getD (n + i) d := by
  rw [List.getD_eq_getElem _ _ (by simp only [List.length_drop]; omega),
    List.getD_eq_getElem _ _ h]
  simp [List.getElem_drop]

lemma getD_drop_zero {α : Type _} (l : List α) (n : ℕ) (d : α)
    (h : n < l.length) :
    (l.drop n).getD 0 d = l.getD n d := by
  have h2 := getD_drop l n 0 d (by omega)
  rw [Nat.add_zero] at h2
  exact h2

lemma histStep_drop (ps : List Vec2) (p : Vec2) :
    histStep (ps.drop (ps.length - 200000)) p =
      (ps ++ [p]).drop (ps.length + 1 - 200000) := by
  by_cases hn : ps.length < 200000
  · have h1 : ps.length - 200000 = 0 := by omega
    have h2 : ps.length + 1 - 200000 = 0 := by omega
    rw [h1, h2, List.drop_zero, List.drop_zero]
    have h3 : ¬ ((ps ++ [p]).length > 200000) := by
      simp only [List.length_append, List.length_cons, List.length_nil]
      omega
    simp only [histStep, h3, if_false, ite_false]
  · push_neg at hn
    have hlen : (ps.drop (ps.length - 200000)).length = 200000 := by
      simp only [List.length_drop]
      omega
    have hcond : ((ps.drop (ps.length - 200000)) ++ [p]).length > 200000 := by
      simp only [List.length_append, hlen, List.length_cons, List.length_nil]
      omega
    simp only [histStep, hcond, if_true, ite_true]
    have e : ps.length + 1 - 200000 = (ps.length - 200000) + 1 := by omega
    rw [e, ← List.drop_drop,
      List.drop_append_of_le_length (by omega : ps.length - 200000 ≤ ps.length)]

/-- The position of body `i` after `t` ticks (the sample recorded during
tick `t`, for `t ≥ 1`). -/
def System.posAt (sys : System) (dt : ℝ) (i t : ℕ) : Vec2 :=
  ((sys.run dt t).bodies.getD i default).position

/-- The samples recorded for body `i` during ticks `1..T`, in order. -/
def System.samples (sys : System) (dt : ℝ) (i T : ℕ) : List Vec2 :=
  (List.range T).map (fun t => sys.posAt dt i (t + 1))

lemma System.samples_succ (sys : System) (dt : ℝ) (i T : ℕ) :
    sys.samples dt i (T + 1) =
      sys.samples dt i T ++ [sys.posAt dt i (T + 1)] := by
  simp [System.samples, List.range_succ]

lemma System.samples_length (sys : System) (dt : ℝ) (i T : ℕ) :
    (sys.samples dt i T).length = T := by
  simp [System.samples]

lemma System.integrate_history_getD (sys : System) (dt : ℝ) {i : ℕ}
    (hi : i < sys.bodies.length) :
    ((sys.integrate dt).bodies.getD i default).position_history =
      histStep (sys.bodies.getD i default).position_history
        ((sys.integrate dt).bodies.getD i default).position := by
  rw [System.integrate_getD sys dt hi, System.drifted_getD sys dt hi]

lemma System.history_characterization (sys : System) (dt : ℝ) {i : ℕ}
    (hi : i < sys.bodies.length)
    (h0 : (sys.bodies.getD i default).position_history = []) (T : ℕ) :
    ((sys.run dt T).bodies.getD i default).position_history =
      (sys.samples dt i T).drop (T - 200000) := by
  induction T with
  | zero => simpa [System.samples, System.run] using h0
  | succ T ih =>
    have hi' : i < (sys.run dt T).bodies.length := by
      rw [System.length_run]; exact hi
    have hstep := System.integrate_history_getD (sys.run dt T) dt hi'
    rw [show sys.run dt (T + 1) = (sys.run dt T).integrate dt from rfl]
    rw [hstep, ih, System.samples_succ]
    have hmain := histStep_drop (sys.samples dt i T) (sys.posAt dt i (T + 1))
    rw [System.samples_length] at hmain
    exact hmain

/-- The retained trail length after `T` ticks from an empty history. -/
lemma System.history_length (sys : System) (dt : ℝ) {i : ℕ} (T : ℕ)
    (hi : i < sys.bodies.length)
    (h0 : (sys.bodies.getD i default).position_history = []) :
    ((sys.run dt T).bodies.getD i default).position_history.length =
      min T 200000 := by
  rw [System.history_characterization sys dt hi h0 T]
  simp only [List.length_drop, System.samples_length]
  omega

/-- Claim C4: starting from the empty history every `integrate` appends one
sample per body and evicts the oldest when the 200000 cap would be exceeded,
so the trail length after `T` ticks is `min T 200000` (never more than
200000), and for `T > 200000` the oldest retained sample is the one recorded
during tick `T - 200000 + 1`. -/
theorem trajectory_cap (sys : System) (dt : ℝ) (i T : ℕ)
    (hi : i < sys.bodies.length)
    (h0 : (sys.bodies.getD i default).position_history = []) :
    ((sys.run dt T).bodies.getD i default).position_history.length =
      min T 200000 ∧
    (200000 < T →
      ((sys.run dt T).bodies.getD i default).position_history.getD 0
          Vec2.zero =
        sys.posAt dt i (T - 200000 + 1)) := by
  refine ⟨System.history_length sys dt T hi h0, fun hT => ?_⟩
  rw [System.history_characterization sys dt hi h0 T]
  rw [getD_drop_zero _ _ _ (by rw [System.samples_length]; omega)]
  simp only [System.samples]
  rw [getD_range_map _ _ (by omega : T - 200000 < T)]

/-- Witness for C4 at `T = 200001` ticks of the one-body system. -/
theorem trajectory_cap_witness :
    ((oneBodySys.run 1 200001).bodies.getD 0 default).position_history.length =
      min 200001 200000 ∧
    ((oneBodySys.run 1 200001).bodies.getD 0 default).position_history.getD 0
        Vec2.zero =
      oneBodySys.posAt 1 0 (200001 - 200000 + 1) :=
  ⟨(trajectory_cap oneBodySys 1 0 200001
      (by rw [oneBodySys_length]; norm_num) rfl).1,
    (trajectory_cap oneBodySys 1 0 200001
      (by rw [oneBodySys_length]; norm_num) rfl).2 (by norm_num)⟩

/-- Claim C10: every retained trail entry is an independent snapshot: after
any number `T` of ticks, the entry at index `j` still equals the position the
body had at the end of the tick that recorded it (tick `T - 200000 + j + 1`),
unaffected by all the position updates performed since. -/
theorem trajectory_snapshots (sys : System) (dt : ℝ) (i T : ℕ)
    (hi : i < sys.bodies.length)
    (h0 : (sys.bodies.getD i default).position_history = []) (j : ℕ)
    (hj : j < ((sys.run dt T).bodies.getD i default).position_history.length) :
    ((sys.run dt T).bodies.getD i default).position_history.getD j Vec2.zero =
      sys.posAt dt i (T - 200000 + j + 1) := by
  rw [System.history_length sys dt T hi h0] at hj
  rw [System.history_characterization sys dt hi h0 T]
  rw [getD_drop _ _ _ _ (by rw [System.samples_length]; omega)]
  simp only [System.samples]
  rw [getD_range_map _ _ (by omega : T - 200000 + j < T)]

/-- Witness for C10: after one tick, entry 0 of the trail is the tick-1
position. -/
theorem trajectory_snapshots_witness :
    ((oneBodySys.run 1 1).bodies.getD 0 default).position_history.getD 0
        Vec2.zero =
      oneBodySys.posAt 1 0 (1 - 200000 + 0 + 1) := by
  have h1 : 0 < oneBodySys.bodies.length := by rw [oneBodySys_length]; norm_num
  have h2 : 0 <
      ((oneBodySys.run 1 1).bodies.getD 0 default).position_history.length := by
    rw [System.history_length oneBodySys 1 1 h1 rfl]
    omega
  exact trajectory_snapshots oneBodySys 1 0 1 h1 rfl 0 h2

/-! ### Construction-time behaviour (C7) -/

lemma flatten_get_state_length (l : List Body) :
    ((l.map Body.get_state).flatten).length = 4 * l.length := by
  induction l with
  | nil => simp
  | cons hd tl ih =>
    simp only [List.map_cons, List.flatten_cons, List.length_append, ih,
      List.length_cons, Body.get_state, List.length_nil]
    omega

/-- Counterexample to C7: a state vector of length 5 (not a multiple of 4)
is accepted without any error; the constructor silently builds a one-body
system and the trailing element is dropped, as `get_state` shows. -/
theorem construction_misuse_not_rejected :
    (System.ofState 1 [0, 0, 0, 0, 5]).bodies.length = 1 ∧
    (System.ofState 1 [0, 0, 0, 0, 5]).get_state = [0, 0, 0, 0] :=
  ⟨rfl, rfl⟩

/-- Claim C7 as amended: the source performs no construction-time
validation.  For every state vector the constructor silently keeps exactly
`⌊length/4⌋` quadruples (so a non-multiple-of-4 tail is dropped, as the
`get_state` length shows), every constructed body gets mass `1.0` with no
check, and `integrate` on a system with an empty body list is a no-op rather
than a distinct invalid-configuration error. -/
theorem construction_truncates (G : ℝ) (state : List ℝ) (dt : ℝ) :
    (System.ofState G state).bodies.length = state.length / 4 ∧
    (System.ofState G state).get_state.length = 4 * (state.length / 4) ∧
    (∀ b ∈ (System.ofState G state).bodies, b.mass = 1.0) ∧
    (System.mk G []).integrate dt = System.mk G [] := by
  refine ⟨by simp [System.ofState], ?_, ?_, rfl⟩
  · rw [System.get_state_eq_flatten, flatten_get_state_length]
    simp [System.ofState]
  · intro b hb
    simp only [System.ofState, List.mem_map] at hb
    obtain ⟨k, _, rfl⟩ := hb
    rfl

/-- Witness for C7 (amended) at the length-5 state vector. -/
theorem construction_truncates_witness :
    (System.ofState 1 [0, 0, 0, 0, 5]).bodies.length =
      [(0 : ℝ), 0, 0, 0, 5].length / 4 ∧
    (System.ofState 1 [0, 0, 0, 0, 5]).get_state.length =
      4 * ([(0 : ℝ), 0, 0, 0, 5].length / 4) ∧
    (Body.make 1.0 ⟨0, 0⟩ ⟨0, 0⟩).mass = 1.0 ∧
    (System.mk 1 []).integrate 1 = System.mk 1 [] :=
  ⟨(construction_truncates 1 [0, 0, 0, 0, 5] 1).1,
    (construction_truncates 1 [0, 0, 0, 0, 5] 1).2.1,
    (construction_truncates 1 [0, 0, 0, 0, 5] 1).2.2.1
      (Body.make 1.0 ⟨0, 0⟩ ⟨0, 0⟩) (List.mem_singleton.mpr rfl),
    (construction_truncates 1 [0, 0, 0, 0, 5] 1).2.2.2⟩

/-! ### Control input handling (C9) -/

/-- The per-tick control application of `pygame_run`:
`system.bodies[i].update_rocket_controls(keys)` mutates body `i` in place,
i.e. replaces it in the list. -/
def System.applyControls (sys : System) (i : ℕ) (keys : Keys) : System :=
  ⟨sys.G, sys.bodies.set i ((sys.bodies.getD i default).update_rocket_controls keys)⟩

lemma System.applyControls_getD (sys : System) (i : ℕ) (keys : Keys)
    (hi : i < sys.bodies.length) :
    (sys.applyControls i keys).bodies.getD i default =
      (sys.bodies.getD i default).update_rocket_controls keys := by
  show (sys.bodies.set i _).getD i default = _
  rw [List.getD_eq_getElem _ _ (by simpa using hi)]
  simp [List.getElem_set_self]

/-- Claim C9: with the kill key down (and no turn keys) the control pass
sets the rocket's velocity to the zero vector whatever it was before, leaves
its position, heading angle and trajectory history untouched, and the
following `integrate` still applies the acceleration normally: the velocity
after that tick is exactly `0.5*(a0 + a1)*dt` (a 2D vector). -/
theorem kill_velocity (sys : System) (dt : ℝ) (i : ℕ) (keys : Keys)
    (hi : i < sys.bodies.length)
    (hr : (sys.bodies.getD i default).is_rocket = true)
    (hdown : keys.down = true) (hleft : keys.left = false)
    (hright : keys.right = false) :
    ((sys.applyControls i keys).bodies.getD i default).velocity = Vec2.zero ∧
    ((sys.applyControls i keys).bodies.getD i default).position =
      (sys.bodies.getD i default).position ∧
    ((sys.applyControls i keys).bodies.getD i default).angle =
      (sys.bodies.getD i default).angle ∧
    ((sys.applyControls i keys).bodies.getD i default).position_history =
      (sys.bodies.getD i default).position_history ∧
    (((sys.applyControls i keys).integrate dt).bodies.getD i default).velocity =
      Vec2.smul (0.5 * dt)
        (Vec2.add
          ((sys.applyControls i keys).compute_accelerations.getD i Vec2.zero)
          (((sys.applyControls i keys).drifted dt).compute_accelerations.getD i
            Vec2.zero)) := by
  have hg := System.applyControls_getD sys i keys hi
  have hupdall : ∀ b : Body, b.is_rocket = true →
      b.update_rocket_controls keys =
        { b with
            velocity := Vec2.zero
            thrust := if keys.up then 6 else 0 } := by
    intro b hb
    cases hu : keys.up <;>
      simp [Body.update_rocket_controls, hb, hdown, hleft, hright, hu]
  have hupd := hupdall (sys.bodies.getD i default) hr
  have hlen : i < (sys.applyControls i keys).bodies.length := by
    show i < (sys.bodies.set i _).length
    simpa using hi
  refine ⟨by rw [hg, hupd], by rw [hg, hupd], by rw [hg, hupd],
    by rw [hg, hupd], ?_⟩
  rw [System.integrate_getD _ dt hlen]
  show Vec2.add ((System.drifted _ dt).bodies.getD i default).velocity _ = _
  rw [System.drifted_getD _ dt hlen]
  show Vec2.add ((sys.applyControls i keys).bodies.getD i default).velocity _ = _
  rw [hg, hupd]
  show Vec2.add Vec2.zero _ = _
  rw [Vec2.zero_add]

/-- The key snapshot with only the kill key pressed. -/
def killKeys : Keys := ⟨false, false, false, true⟩

/-- A system containing a single rocket body. -/
def rocketSys : System := ⟨1, [rocketBody]⟩

/-- Witness for C9 at the one-rocket system with the kill key down. -/
theorem kill_velocity_witness :
    ((rocketSys.applyControls 0 killKeys).bodies.getD 0 default).velocity =
      Vec2.zero ∧
    ((rocketSys.applyControls 0 killKeys).bodies.getD 0 default).position =
      (rocketSys.bodies.getD 0 default).position ∧
    ((rocketSys.applyControls 0 killKeys).bodies.getD 0 default).angle =
      (rocketSys.bodies.getD 0 default).angle ∧
    ((rocketSys.applyControls 0 killKeys).bodies.getD 0
        default).position_history =
      (rocketSys.bodies.getD 0 default).position_history ∧
    (((rocketSys.applyControls 0 killKeys).integrate 0.001).bodies.getD 0
        default).velocity =
      Vec2.smul (0.5 * 0.001)
        (Vec2.add
          ((rocketSys.applyControls 0 killKeys).compute_accelerations.getD 0
            Vec2.zero)
          (((rocketSys.applyControls 0 killKeys).drifted
              0.001).compute_accelerations.getD 0 Vec2.zero)) :=
  kill_velocity rocketSys 0.001 0 killKeys (by norm_num [rocketSys]) rfl rfl
    rfl rfl

/-! ### The concrete scenario of spec §8 (C8) -/

/-- The §8 scenario with the controllable body's mass left as a parameter
`m`: a rocket at `(0, 1.2)` at rest, heading `0`, thrust disengaged
(`thrust = 0`), and a passive unit-mass body at the origin at rest. -/
def scenario (m : ℝ) : System :=
  ⟨1, [{ mass := m
         position := ⟨0, 1.2⟩
         velocity := ⟨0, 0⟩
         is_rocket := true
         thrust := 0
         angle := 0
         position_history := [] },
       Body.make 1.0 ⟨0, 0⟩ ⟨0, 0⟩]⟩

lemma scenario_length (m : ℝ) : (scenario m).bodies.length = 2 := rfl

lemma scenario_accel_rocket (m : ℝ) :
    (scenario m).compute_accelerations.getD 0 Vec2.zero = Vec2.zero := by
  rw [System.compute_accelerations_getD _ (by rw [scenario_length]; norm_num)]
  show Body.compute_acceleration _ [Body.make 1.0 ⟨0, 0⟩ ⟨0, 0⟩] 1 0.18 =
    Vec2.zero
  simp [Body.compute_acceleration, Vec2.add, Vec2.zero, scenario]

lemma scenario_accel_passive (m : ℝ) :
    (scenario m).compute_accelerations.getD 1 Vec2.zero = ⟨0, m / 1.44⟩ := by
  rw [System.compute_accelerations_getD _ (by rw [scenario_length]; norm_num)]
  have hnorm : Vec2.norm (Vec2.sub (⟨0, 1.2⟩ : Vec2) ⟨0, 0⟩) = 1.2 := by
    show Real.sqrt ((0 - 0) ^ 2 + (1.2 - 0) ^ 2) = 1.2
    rw [show ((0 : ℝ) - 0) ^ 2 + ((1.2 : ℝ) - 0) ^ 2 = 1.2 ^ 2 by norm_num]
    exact Real.sqrt_sq (by norm_num)
  have hmax : max ((1.2 : ℝ) ^ 3) ((0.18 : ℝ) ^ 3) = 1.728 := by
    rw [max_eq_left (by norm_num)]
    norm_num
  show Body.compute_acceleration (Body.make 1.0 ⟨0, 0⟩ ⟨0, 0⟩)
      [{ mass := m, position := ⟨0, 1.2⟩, velocity := ⟨0, 0⟩, is_rocket := true,
         thrust := 0, angle := 0, position_history := [] }] 1 0.18 = _
  simp only [Body.compute_acceleration, Body.make, gravTerm, hnorm,
    List.foldl_cons, List.foldl_nil, Bool.not_false, if_true, if_false,
    Bool.false_eq_true, ite_true, ite_false]
  rw [hmax, Vec2.zero_add]
  show (⟨1 * m / 1.728 * ((0 : ℝ) - 0), 1 * m / 1.728 * ((1.2 : ℝ) - 0)⟩ :
      Vec2) = ⟨0, m / 1.44⟩
  have hx : 1 * m / 1.728 * ((0 : ℝ) - 0) = (0 : ℝ) := by ring
  have hy : 1 * m / 1.728 * ((1.2 : ℝ) - 0) = m / 1.44 := by ring
  rw [hx, hy]

lemma scenario_positions (m : ℝ) :
    (((scenario m).integrate 0.001).bodies.getD 0 default).position =
      ⟨0, 1.2⟩ ∧
    (((scenario m).integrate 0.001).bodies.getD 1 default).position =
      ⟨0, m / 2880000⟩ := by
  have h0 : (0 : ℕ) < (scenario m).bodies.length := by
    rw [scenario_length]; norm_num
  have h1 : (1 : ℕ) < (scenario m).bodies.length := by
    rw [scenario_length]; norm_num
  constructor
  · rw [System.integrate_getD _ _ h0]
    show ((System.drifted _ _).bodies.getD 0 default).position = _
    rw [System.drifted_getD _ _ h0, scenario_accel_rocket]
    show Vec2.add ⟨0, 1.2⟩
        (Vec2.add (Vec2.smul 0.001 ⟨0, 0⟩)
          (Vec2.smul (0.5 * 0.001 ^ 2) Vec2.zero)) = ⟨0, 1.2⟩
    show (⟨0 + (0.001 * 0 + 0.5 * 0.001 ^ 2 * 0),
        1.2 + (0.001 * 0 + 0.5 * 0.001 ^ 2 * 0)⟩ : Vec2) = ⟨0, 1.2⟩
    have hx : (0 : ℝ) + (0.001 * 0 + 0.5 * 0.001 ^ 2 * 0) = 0 := by norm_num
    have hy : (1.2 : ℝ) + (0.001 * 0 + 0.5 * 0.001 ^ 2 * 0) = 1.2 := by
      norm_num
    rw [hx, hy]
  · rw [System.integrate_getD _ _ h1]
    show ((System.drifted _ _).bodies.getD 1 default).position = _
    rw [System.drifted_getD _ _ h1, scenario_accel_passive]
    show Vec2.add ⟨0, 0⟩
        (Vec2.add (Vec2.smul 0.001 ⟨0, 0⟩)
          (Vec2.smul (0.5 * 0.001 ^ 2) ⟨0, m / 1.44⟩)) = ⟨0, m / 2880000⟩
    show (⟨0 + (0.001 * 0 + 0.5 * 0.001 ^ 2 * 0),
        0 + (0.001 * 0 + 0.5 * 0.001 ^ 2 * (m / 1.44))⟩ : Vec2) =
      ⟨0, m / 2880000⟩
    have hx : (0 : ℝ) + (0.001 * 0 + 0.5 * 0.001 ^ 2 * 0) = 0 := by norm_num
    have hy : (0 : ℝ) + (0.001 * 0 + 0.5 * 0.001 ^ 2 * (m / 1.44)) =
        m / 2880000 := by ring
    rw [hx, hy]

/-- Counterexample to C8: with the source's rocket mass `0.0001` (the
"mass ≈ 0" of the scenario), the passive body does *not* remain at the
origin after one tick — the controllable body's small but nonzero mass
attracts it, moving it to `(0, 0.0001/2880000) ≈ (0, 3.47e-11)`. -/
theorem scenario_passive_moves :
    (((scenario 0.0001).integrate 0.001).bodies.getD 1 default).position ≠
      (⟨0, 0⟩ : Vec2) := by
  rw [(scenario_positions 0.0001).2]
  intro h
  have hy : (0.0001 : ℝ) / 2880000 = 0 := congrArg Vec2.y h
  norm_num at hy

/-- Claim C8 as amended: with thrust disengaged and `dt = 0.001`, after one
`integrate` the controllable body's position change is exactly `[0, 0]` for
every mass `m`, but the passive body moves to `(0, m/2880000)` and so
remains at the origin precisely when the controllable body's mass is exactly
zero; for the source's mass `0.0001` it moves by `0.0001/2880000`. -/
theorem scenario_one_tick (m : ℝ) :
    (((scenario m).integrate 0.001).bodies.getD 0 default).position =
      ⟨0, 1.2⟩ ∧
    (((scenario m).integrate 0.001).bodies.getD 1 default).position =
      ⟨0, m / 2880000⟩ ∧
    ((((scenario m).integrate 0.001).bodies.getD 1 default).position =
        (⟨0, 0⟩ : Vec2) ↔ m = 0) := by
  refine ⟨(scenario_positions m).1, (scenario_positions m).2, ?_⟩
  rw [(scenario_positions m).2]
  constructor
  · intro h
    have hy : m / 2880000 = (0 : ℝ) := congrArg Vec2.y h
    rcases div_eq_zero_iff.mp hy with h2 | h2
    · exact h2
    · norm_num at h2
  · intro h
    rw [h, zero_div]

end Rocket
